import Mathlib

/-!
Verification of `utils.go` (package `utils`).

A shallow embedding of the two exported functions of the package,
`GetAuthConfig` and `GetRepoAndRef`, and of the private helper
`getConfiguredCredentialStore`, followed by the properties proved about them.

Conventions of the embedding:

* a Go `string` is a Lean `String`; the only characters the code inspects are
  the ASCII separators `@` and `:`;
* a Go `error` is an `Option String`: `none` is `nil`, `some msg` is an error
  whose `Error()` text is `msg`, so that `fmt.Errorf("...: %v", err)` is string
  concatenation;
* a Go `map[string]V` is the list of its entries, in the order in which the
  `range` statement of the run at hand visits them; a lookup takes the entry
  stored under the key;
* the collaborators of the package (the flag values of the command line, the
  config loader, the native credential store) are explicit parameters;
* a run-time panic of Go (an index out of range) is the result `none`.
-/

namespace utils

/-! ## Data model -/

/-- Modelled from the spec: the struct `types.AuthConfig` is declared in the
docker library and not in this package; the data model of the specification
gives it a username, a password and a server address. The default value is the
Go zero value `types.AuthConfig{}`. -/
structure AuthConfig where
  Username : String := ""
  Password : String := ""
  ServerAddress : String := ""
deriving DecidableEq, Repr

/-- Modelled from the spec: the struct `configfile.ConfigFile` is declared in
the docker library; these are the three members the package reads.
`CredentialHelpers` is `none` for a nil map, which the helper tests for. -/
structure ConfigFile where
  AuthConfigs : List (String × AuthConfig) := []
  CredentialHelpers : Option (List (String × String)) := none
  CredentialsStore : String := ""
deriving DecidableEq, Repr

/-- Length of a possibly nil Go map: `len` of a nil map is `0`. -/
def mapLen {α : Type} : Option (List α) → Nat
  | none => 0
  | some m => m.length

/-- Modelled from the spec: the method `ConfigFile.ContainsAuth` belongs to the
docker library; the config contains auth unless `AuthConfigs` is empty,
`CredentialHelpers` is empty and `CredentialsStore` is unset. -/
def ConfigFile.ContainsAuth (configFile : ConfigFile) : Bool :=
  configFile.CredentialsStore != "" ||
    decide (mapLen configFile.CredentialHelpers > 0) ||
    decide (configFile.AuthConfigs.length > 0)

/-- The part of `cli.Context` the package reads: the value of every global
string flag (the empty string for a flag that was not passed) and the
positional arguments. -/
structure Context where
  globals : String → String
  args : List String

/-- The accessor `c.GlobalString(name)`. -/
def Context.GlobalString (c : Context) (name : String) : String :=
  c.globals name

/-- The accessor `c.Args()`. -/
def Context.Args (c : Context) : List String :=
  c.args

/-- The collaborators of `GetAuthConfig`: `Dir` is `config.Dir()`, `Load` is
`config.Load`, which gives the loaded file or the text of its error, and
`NativeGet dcfg store registry` is
`credentials.NewNativeStore(dcfg, store).Get(registry)`. -/
structure Env where
  Dir : String
  Load : String → Except String ConfigFile
  NativeGet : ConfigFile → String → String → Except String AuthConfig

/-! ## The private helper -/

/-- Embedding of `getConfiguredCredentialStore`: the credential helper
configured for the given registry, the default credsStore, or the empty string
if neither is configured. -/
def getConfiguredCredentialStore (c : ConfigFile) (serverAddress : String) : String :=
  match c.CredentialHelpers with
  | some helpers =>
    if serverAddress ≠ "" then
      match helpers.lookup serverAddress with
      | some helper => helper
      | none => c.CredentialsStore
    else c.CredentialsStore
  | none => c.CredentialsStore

/-! ## Credential resolution -/

/-- Embedding of `GetAuthConfig`: the pair of the returned `types.AuthConfig`
and the returned `error`. -/
def GetAuthConfig (env : Env) (c : Context) : AuthConfig × Option String :=
  if c.GlobalString "username" ≠ "" ∧ c.GlobalString "password" ≠ "" ∧
      c.GlobalString "registry" ≠ "" then
    ({ Username := c.GlobalString "username",
       Password := c.GlobalString "password",
       ServerAddress := c.GlobalString "registry" }, none)
  else
    match env.Load env.Dir with
    | .error err => ({}, some ("Loading config file failed: " ++ err))
    | .ok dcfg =>
      -- return error early if there are no auths saved
      if !dcfg.ContainsAuth then
        if c.GlobalString "registry" ≠ "" then
          ({ ServerAddress := c.GlobalString "registry" }, none)
        else
          ({}, some ("No auth was present in " ++ env.Dir ++
            ", please pass a registry, username, and password"))
      else
        -- if they passed a specific registry, return those creds if they exist
        let registry := c.GlobalString "registry"
        if registry ≠ "" then
          -- if credential helper exists, return the creds from the credential store
          let store := getConfiguredCredentialStore dcfg registry
          if store ≠ "" then
            match env.NativeGet dcfg store registry with
            | .error err =>
              ({}, some ("Unable to retrieve auth from Credential Store: " ++ err))
            | .ok creds => (creds, none)
          else
            match dcfg.AuthConfigs.lookup registry with
            | some creds => (creds, none)
            | none => ({}, some ("No authentication credentials exist for " ++ registry))
        else
          -- the first entry the range statement visits, if there is one
          match dcfg.AuthConfigs with
          | (_, creds) :: _ => (creds, none)
          | [] => ({}, some "Could not find any authentication credentials")

/-! ## Reference parsing -/

namespace strings

/-- The call `strings.Contains(s, sep)` of the Go library for a separator of one
character: whether the character occurs in `s`. -/
def Contains (s : String) (sep : Char) : Bool :=
  s.data.contains sep

/-- Splitting of a list of characters at every occurrence of `sep`. -/
def splitChars (sep : Char) : List Char → List (List Char)
  | [] => [[]]
  | ch :: rest =>
    if ch = sep then [] :: splitChars sep rest
    else
      match splitChars sep rest with
      | [] => [[ch]]
      | part :: parts => (ch :: part) :: parts

/-- The call `strings.Split(s, sep)` of the Go library for a separator of one
character: the pieces of `s` between the occurrences of `sep`, all of them. -/
def Split (s : String) (sep : Char) : List String :=
  (splitChars sep s.data).map String.mk

end strings

/-- The value of the local variable `parts` of `GetRepoAndRef` for the first
argument `arg`: the split at `@` if `arg` contains one, else the split at `:` if
`arg` contains one, else `arg` alone. -/
def parts (arg : String) : List String :=
  if strings.Contains arg '@' then strings.Split arg '@'
  else if strings.Contains arg ':' then strings.Split arg ':'
  else [arg]

/-- Embedding of `GetRepoAndRef`: the triple `(repo, ref, err)` the function
returns, or `none` when an indexing (`c.Args()[0]`, `parts[0]`, `parts[1]`)
panics. -/
def GetRepoAndRef (c : Context) : Option (String × String × Option String) :=
  if c.Args.length < 1 then
    some ("", "", some "pass the name of the repository")
  else
    match c.Args[0]? with
    | none => none
    | some arg =>
      match (parts arg)[0]? with
      | none => none
      | some repo =>
        if (parts arg).length > 1 then
          match (parts arg)[1]? with
          | none => none
          | some ref => some (repo, ref, none)
        else some (repo, "latest", none)

/-! ## Fixtures used to instantiate the theorems -/

/-- A context whose global flags `username`, `password` and `registry` have the
given values (every other flag is unset) and whose positional arguments are
`args`. -/
def mkContext (username password registry : String) (args : List String) : Context where
  globals := fun name =>
    if name = "username" then username
    else if name = "password" then password
    else if name = "registry" then registry
    else ""
  args := args

/-- An environment in which the config file loads as `cfg` and every query of
the native store answers `stored`. -/
def envOf (cfg : ConfigFile) (stored : Except String AuthConfig) : Env where
  Dir := "/home/user/.docker"
  Load := fun _ => .ok cfg
  NativeGet := fun _ _ _ => stored

/-- An environment in which loading the config file fails with the text `err`
and the native store has nothing to give. -/
def envFailing (err : String) : Env where
  Dir := "/home/user/.docker"
  Load := fun _ => .error err
  NativeGet := fun _ _ _ => .error "credentials not found in native keychain"

/-- Some stored credentials. -/
def credsA : AuthConfig :=
  { Username := "alice", Password := "secret", ServerAddress := "r1" }

/-- Other stored credentials. -/
def credsB : AuthConfig :=
  { Username := "bob", Password := "hunter2", ServerAddress := "r1" }

/-- A config whose `CredentialHelpers` has the empty string as a key and whose
default store is set. -/
def cfgEmptyKey : ConfigFile :=
  { CredentialHelpers := some [("", "desktop")], CredentialsStore := "osxkeychain" }

/-! ## Vocabulary of the statements -/

/-- The text of `s` before its first `sep`; all of `s` when `sep` does not occur
in it. -/
def textBefore (s : String) (sep : Char) : String :=
  String.mk (s.data.takeWhile (fun ch => ch != sep))

/-- The text of `s` after its first `sep`; empty when `sep` does not occur in
it. -/
def textAfter (s : String) (sep : Char) : String :=
  String.mk (s.data.dropWhile (fun ch => ch != sep)).tail

/-- The Go expression `m[k]` with its `exists` flag, for a map that may be nil:
the value stored under `k`, if `k` is a key of `m`. -/
def mapFind {β : Type} : Option (List (String × β)) → String → Option β
  | none, _ => none
  | some m, k => m.lookup k

/-! ## Auxiliary facts -/

theorem containsAuth_eq_false_iff (cfg : ConfigFile) :
    cfg.ContainsAuth = false ↔
      cfg.CredentialsStore = "" ∧ mapLen cfg.CredentialHelpers = 0 ∧ cfg.AuthConfigs = [] := by
  simp [ConfigFile.ContainsAuth, List.length_eq_zero, and_assoc]

theorem containsAuth_of_lookup {cfg : ConfigFile} {r : String} {A : AuthConfig}
    (h : cfg.AuthConfigs.lookup r = some A) : cfg.ContainsAuth = true := by
  cases hcf : cfg.ContainsAuth with
  | true => rfl
  | false =>
    have hnil := ((containsAuth_eq_false_iff cfg).1 hcf).2.2
    rw [hnil] at h
    simp at h

theorem containsAuth_of_authConfigs {cfg : ConfigFile} (h : cfg.AuthConfigs ≠ []) :
    cfg.ContainsAuth = true := by
  cases hcf : cfg.ContainsAuth with
  | true => rfl
  | false => exact absurd ((containsAuth_eq_false_iff cfg).1 hcf).2.2 h

theorem containsAuth_of_store {cfg : ConfigFile} {r : String}
    (h : getConfiguredCredentialStore cfg r ≠ "") : cfg.ContainsAuth = true := by
  cases hcf : cfg.ContainsAuth with
  | true => rfl
  | false =>
    obtain ⟨hs, hh, -⟩ := (containsAuth_eq_false_iff cfg).1 hcf
    exfalso
    apply h
    unfold getConfiguredCredentialStore
    cases hch : cfg.CredentialHelpers with
    | none => simpa using hs
    | some helpers =>
      rw [hch] at hh
      have hnil : helpers = [] := List.length_eq_zero.1 hh
      subst hnil
      simp [hs]

theorem not_all_flags {c : Context}
    (h : c.GlobalString "username" = "" ∨ c.GlobalString "password" = "" ∨
      c.GlobalString "registry" = "") :
    ¬ (c.GlobalString "username" ≠ "" ∧ c.GlobalString "password" ≠ "" ∧
      c.GlobalString "registry" ≠ "") := by
  rintro ⟨hu, hp, hr⟩
  rcases h with h | h | h
  · exact hu h
  · exact hp h
  · exact hr h

/-! ## Properties of `GetAuthConfig` -/

/-- C1: when the flags `username`, `password` and `registry` are all non-empty,
`GetAuthConfig` returns exactly the credentials built from them and a nil
error, whatever the config loader and the credential store would do. -/
theorem GetAuthConfig_explicit_flags (env : Env) (c : Context)
    (hu : c.GlobalString "username" ≠ "") (hp : c.GlobalString "password" ≠ "")
    (hr : c.GlobalString "registry" ≠ "") :
    GetAuthConfig env c =
      ({ Username := c.GlobalString "username",
         Password := c.GlobalString "password",
         ServerAddress := c.GlobalString "registry" }, none) := by
  unfold GetAuthConfig
  rw [if_pos ⟨hu, hp, hr⟩]

/-- Instance of C1: complete flags win although the config file cannot be
loaded. -/
theorem GetAuthConfig_explicit_flags_witness :
    GetAuthConfig (envFailing "permission denied") (mkContext "u" "p" "r" []) =
      ({ Username := "u", Password := "p", ServerAddress := "r" }, none) :=
  GetAuthConfig_explicit_flags (envFailing "permission denied") (mkContext "u" "p" "r" [])
    (by decide) (by decide) (by decide)

/-- C2, as stated, fails: with the three flags non-empty the config file is
never loaded, so a loader that fails does not make `GetAuthConfig` fail. -/
theorem GetAuthConfig_load_failure_counterexample :
    (envFailing "permission denied").Load (envFailing "permission denied").Dir =
        .error "permission denied" ∧
      GetAuthConfig (envFailing "permission denied") (mkContext "u" "p" "r" []) =
        ({ Username := "u", Password := "p", ServerAddress := "r" }, none) ∧
      ¬ ∀ (env : Env) (c : Context) (err : String),
          env.Load env.Dir = .error err → (GetAuthConfig env c).2 ≠ none := by
  refine ⟨rfl, by decide, fun h => ?_⟩
  exact h (envFailing "permission denied") (mkContext "u" "p" "r" []) "permission denied" rfl
    (by decide)

/-- C2, amended: when at least one of the flags `username`, `password`,
`registry` is empty and loading the config file fails, `GetAuthConfig` returns
the zero AuthConfig and the error "Loading config file failed: " followed by
the cause. -/
theorem GetAuthConfig_load_failure (env : Env) (c : Context) (err : String)
    (hflags : c.GlobalString "username" = "" ∨ c.GlobalString "password" = "" ∨
      c.GlobalString "registry" = "")
    (hload : env.Load env.Dir = .error err) :
    GetAuthConfig env c = ({}, some ("Loading config file failed: " ++ err)) := by
  unfold GetAuthConfig
  rw [if_neg (not_all_flags hflags), hload]

/-- Instance of the amended C2: username and registry are passed, the password
is not, and the loader fails. -/
theorem GetAuthConfig_load_failure_witness :
    GetAuthConfig (envFailing "permission denied") (mkContext "u" "" "r" []) =
      ({}, some "Loading config file failed: permission denied") :=
  GetAuthConfig_load_failure (envFailing "permission denied") (mkContext "u" "" "r" [])
    "permission denied" (Or.inr (Or.inl (by decide))) rfl

/-- C3: with a non-empty registry, an empty username or password, and a loaded
config that holds no auth at all, `GetAuthConfig` returns the AuthConfig that
has the registry as server address and nothing else, with a nil error; the
server address returned is non-empty and what was passed as username or
password is dropped. -/
theorem GetAuthConfig_anonymous_registry (env : Env) (c : Context) (cfg : ConfigFile)
    (hr : c.GlobalString "registry" ≠ "")
    (hup : c.GlobalString "username" = "" ∨ c.GlobalString "password" = "")
    (hload : env.Load env.Dir = .ok cfg)
    (hauths : cfg.AuthConfigs = []) (hhelpers : mapLen cfg.CredentialHelpers = 0)
    (hstore : cfg.CredentialsStore = "") :
    GetAuthConfig env c = ({ ServerAddress := c.GlobalString "registry" }, none) ∧
      (GetAuthConfig env c).1.ServerAddress ≠ "" ∧
      (GetAuthConfig env c).1.Username = "" ∧
      (GetAuthConfig env c).1.Password = "" ∧
      (GetAuthConfig env c).2 = none := by
  have hflags : c.GlobalString "username" = "" ∨ c.GlobalString "password" = "" ∨
      c.GlobalString "registry" = "" := by
    rcases hup with h | h
    · exact Or.inl h
    · exact Or.inr (Or.inl h)
  have hno : cfg.ContainsAuth = false :=
    (containsAuth_eq_false_iff cfg).2 ⟨hstore, hhelpers, hauths⟩
  have hres : GetAuthConfig env c = ({ ServerAddress := c.GlobalString "registry" }, none) := by
    unfold GetAuthConfig
    rw [if_neg (not_all_flags hflags), hload]
    simp [hno, hr]
  rw [hres]
  exact ⟨rfl, hr, rfl, rfl, rfl⟩

/-- Instance of C3: registry "myregistry.io", a username without a password,
and an empty config. -/
theorem GetAuthConfig_anonymous_registry_witness :
    GetAuthConfig (envOf {} (.ok credsB)) (mkContext "bob" "" "myregistry.io" []) =
        ({ ServerAddress := "myregistry.io" }, none) ∧
      (GetAuthConfig (envOf {} (.ok credsB))
        (mkContext "bob" "" "myregistry.io" [])).1.ServerAddress ≠ "" :=
  have h := GetAuthConfig_anonymous_registry (envOf {} (.ok credsB))
    (mkContext "bob" "" "myregistry.io" []) {} (by decide) (Or.inr (by decide)) rfl rfl rfl rfl
  ⟨h.1, h.2.1⟩

/-- C4: with an empty registry and a loaded config that holds no auth at all,
`GetAuthConfig` returns the zero AuthConfig and the error "No auth was present
in DIR, please pass a registry, username, and password", where DIR is the
config directory, whatever the username and the password are. -/
theorem GetAuthConfig_no_auth_no_registry (env : Env) (c : Context) (cfg : ConfigFile)
    (hr : c.GlobalString "registry" = "")
    (hload : env.Load env.Dir = .ok cfg)
    (hauths : cfg.AuthConfigs = []) (hhelpers : mapLen cfg.CredentialHelpers = 0)
    (hstore : cfg.CredentialsStore = "") :
    GetAuthConfig env c =
      ({}, some ("No auth was present in " ++ env.Dir ++
        ", please pass a registry, username, and password")) := by
  have hno : cfg.ContainsAuth = false :=
    (containsAuth_eq_false_iff cfg).2 ⟨hstore, hhelpers, hauths⟩
  unfold GetAuthConfig
  rw [if_neg (not_all_flags (Or.inr (Or.inr hr))), hload]
  simp [hno, hr]

/-- Instance of C4: username and password are passed, the registry is not, and
the config is empty. -/
theorem GetAuthConfig_no_auth_no_registry_witness :
    GetAuthConfig (envOf {} (.ok credsB)) (mkContext "bob" "hunter2" "" []) =
      ({}, some ("No auth was present in /home/user/.docker" ++
        ", please pass a registry, username, and password")) :=
  GetAuthConfig_no_auth_no_registry (envOf {} (.ok credsB))
    (mkContext "bob" "hunter2" "" []) {} (by decide) rfl rfl rfl rfl

/-- C5: with a non-empty registry, an empty username or password, and a loaded
config in which `getConfiguredCredentialStore` gives the empty string for the
registry while `AuthConfigs` maps the registry to `A`, `GetAuthConfig` returns
`A` unchanged and a nil error, whatever else `AuthConfigs` holds. -/
theorem GetAuthConfig_registry_entry (env : Env) (c : Context) (cfg : ConfigFile)
    (A : AuthConfig)
    (hr : c.GlobalString "registry" ≠ "")
    (hup : c.GlobalString "username" = "" ∨ c.GlobalString "password" = "")
    (hload : env.Load env.Dir = .ok cfg)
    (hhelper : getConfiguredCredentialStore cfg (c.GlobalString "registry") = "")
    (hentry : cfg.AuthConfigs.lookup (c.GlobalString "registry") = some A) :
    GetAuthConfig env c = (A, none) := by
  have hflags : c.GlobalString "username" = "" ∨ c.GlobalString "password" = "" ∨
      c.GlobalString "registry" = "" := by
    rcases hup with h | h
    · exact Or.inl h
    · exact Or.inr (Or.inl h)
  unfold GetAuthConfig
  rw [if_neg (not_all_flags hflags), hload]
  simp [containsAuth_of_lookup hentry, hr, hhelper, hentry]

/-- Instance of C5: `AuthConfigs` holds the single entry "r1", no helper and no
default store are configured, and the registry asked for is "r1". -/
theorem GetAuthConfig_registry_entry_witness :
    GetAuthConfig
        (envOf { AuthConfigs := [("r1", credsA)], CredentialHelpers := some [] } (.ok credsB))
        (mkContext "" "" "r1" []) = (credsA, none) :=
  GetAuthConfig_registry_entry
    (envOf { AuthConfigs := [("r1", credsA)], CredentialHelpers := some [] } (.ok credsB))
    (mkContext "" "" "r1" [])
    { AuthConfigs := [("r1", credsA)], CredentialHelpers := some [] } credsA
    (by decide) (Or.inl (by decide)) rfl (by decide) (by decide)

/-- C6, as stated, fails: an empty config has no helper for "r2" and no entry
for "r2" in `AuthConfigs`, yet `GetAuthConfig` does not fail; it returns the
AuthConfig that holds only the server address "r2". -/
theorem GetAuthConfig_registry_missing_counterexample :
    getConfiguredCredentialStore {} "r2" = "" ∧
      ({} : ConfigFile).AuthConfigs.lookup "r2" = none ∧
      GetAuthConfig (envOf {} (.ok credsB)) (mkContext "" "" "r2" []) =
        ({ ServerAddress := "r2" }, none) ∧
      ¬ ∀ (env : Env) (c : Context) (cfg : ConfigFile),
          c.GlobalString "registry" ≠ "" →
          (c.GlobalString "username" = "" ∨ c.GlobalString "password" = "") →
          env.Load env.Dir = .ok cfg →
          getConfiguredCredentialStore cfg (c.GlobalString "registry") = "" →
          cfg.AuthConfigs.lookup (c.GlobalString "registry") = none →
          (GetAuthConfig env c).2 ≠ none := by
  refine ⟨by decide, by decide, by decide, fun h => ?_⟩
  exact h (envOf {} (.ok credsB)) (mkContext "" "" "r2" []) {} (by decide)
    (Or.inl (by decide)) rfl (by decide) (by decide) (by decide)

/-- C6, amended: with a non-empty registry, an empty username or password, and
a loaded config that contains auth, in which `getConfiguredCredentialStore`
gives the empty string for the registry and `AuthConfigs` has no entry for it,
`GetAuthConfig` returns the zero AuthConfig and the error "No authentication
credentials exist for " followed by the registry. -/
theorem GetAuthConfig_registry_missing (env : Env) (c : Context) (cfg : ConfigFile)
    (hr : c.GlobalString "registry" ≠ "")
    (hup : c.GlobalString "username" = "" ∨ c.GlobalString "password" = "")
    (hload : env.Load env.Dir = .ok cfg)
    (hauth : cfg.ContainsAuth = true)
    (hhelper : getConfiguredCredentialStore cfg (c.GlobalString "registry") = "")
    (hentry : cfg.AuthConfigs.lookup (c.GlobalString "registry") = none) :
    GetAuthConfig env c =
      ({}, some ("No authentication credentials exist for " ++ c.GlobalString "registry")) := by
  have hflags : c.GlobalString "username" = "" ∨ c.GlobalString "password" = "" ∨
      c.GlobalString "registry" = "" := by
    rcases hup with h | h
    · exact Or.inl h
    · exact Or.inr (Or.inl h)
  unfold GetAuthConfig
  rw [if_neg (not_all_flags hflags), hload]
  simp [hauth, hr, hhelper, hentry]

/-- Instance of the amended C6: `AuthConfigs` holds an entry for "r1" only and
the registry asked for is "r2". -/
theorem GetAuthConfig_registry_missing_witness :
    GetAuthConfig (envOf { AuthConfigs := [("r1", credsA)] } (.ok credsB))
        (mkContext "" "" "r2" []) =
      ({}, some "No authentication credentials exist for r2") :=
  GetAuthConfig_registry_missing (envOf { AuthConfigs := [("r1", credsA)] } (.ok credsB))
    (mkContext "" "" "r2" []) { AuthConfigs := [("r1", credsA)] }
    (by decide) (Or.inl (by decide)) rfl (by decide) (by decide) (by decide)

/-- C7: with a non-empty registry, an empty username or password, and a loaded
config whose configured credential helper for the registry is a non-empty name
`h`, the config contains auth and the result of `GetAuthConfig` is decided by
the native store `h` alone: the credentials it gives, with a nil error, or the
zero AuthConfig and the error "Unable to retrieve auth from Credential Store: "
followed by the cause; `AuthConfigs` is not looked at. -/
theorem GetAuthConfig_helper (env : Env) (c : Context) (cfg : ConfigFile) (h : String)
    (hr : c.GlobalString "registry" ≠ "")
    (hup : c.GlobalString "username" = "" ∨ c.GlobalString "password" = "")
    (hload : env.Load env.Dir = .ok cfg)
    (hhelper : getConfiguredCredentialStore cfg (c.GlobalString "registry") = h)
    (hne : h ≠ "") :
    cfg.ContainsAuth = true ∧
      GetAuthConfig env c =
        match env.NativeGet cfg h (c.GlobalString "registry") with
        | .ok creds => (creds, none)
        | .error err =>
          ({}, some ("Unable to retrieve auth from Credential Store: " ++ err)) := by
  have hflags : c.GlobalString "username" = "" ∨ c.GlobalString "password" = "" ∨
      c.GlobalString "registry" = "" := by
    rcases hup with h | h
    · exact Or.inl h
    · exact Or.inr (Or.inl h)
  have hauth : cfg.ContainsAuth = true := containsAuth_of_store (hhelper ▸ hne)
  refine ⟨hauth, ?_⟩
  unfold GetAuthConfig
  rw [if_neg (not_all_flags hflags), hload]
  simp only [hhelper]
  cases env.NativeGet cfg h (c.GlobalString "registry") <;> simp [hauth, hr, hne]

/-- Instance of C7: the default store "osxkeychain" answers for "r1" with
credentials other than those `AuthConfigs` holds for "r1". -/
theorem GetAuthConfig_helper_witness :
    GetAuthConfig
        (envOf { AuthConfigs := [("r1", credsA)], CredentialsStore := "osxkeychain" }
          (.ok credsB))
        (mkContext "" "" "r1" []) = (credsB, none) :=
  (GetAuthConfig_helper
    (envOf { AuthConfigs := [("r1", credsA)], CredentialsStore := "osxkeychain" } (.ok credsB))
    (mkContext "" "" "r1" [])
    { AuthConfigs := [("r1", credsA)], CredentialsStore := "osxkeychain" } "osxkeychain"
    (by decide) (Or.inl (by decide)) rfl (by decide) (by decide)).2

/-- C8: with an empty registry and a loaded config that contains auth, whatever
the username and the password are: if `AuthConfigs` is non-empty,
`GetAuthConfig` returns one of the values stored in it and a nil error, namely
the stored value when there is a single entry; if `AuthConfigs` is empty, it
returns the zero AuthConfig and the error "Could not find any authentication
credentials". -/
theorem GetAuthConfig_any_entry (env : Env) (c : Context) (cfg : ConfigFile)
    (hr : c.GlobalString "registry" = "")
    (hload : env.Load env.Dir = .ok cfg)
    (hauth : cfg.ContainsAuth = true) :
    (cfg.AuthConfigs ≠ [] →
        ∃ A, A ∈ cfg.AuthConfigs.map Prod.snd ∧ GetAuthConfig env c = (A, none)) ∧
      (∀ k A, cfg.AuthConfigs = [(k, A)] → GetAuthConfig env c = (A, none)) ∧
      (cfg.AuthConfigs = [] →
        GetAuthConfig env c = ({}, some "Could not find any authentication credentials")) := by
  have hres : GetAuthConfig env c =
      match cfg.AuthConfigs with
      | (_, creds) :: _ => (creds, none)
      | [] => ({}, some "Could not find any authentication credentials") := by
    unfold GetAuthConfig
    rw [if_neg (not_all_flags (Or.inr (Or.inr hr))), hload]
    simp [hauth, hr]
  rw [hres]
  refine ⟨fun hne => ?_, fun k A hk => ?_, fun hnil => ?_⟩
  · cases hl : cfg.AuthConfigs with
    | nil => exact absurd hl hne
    | cons e rest => exact ⟨e.2, by simp, rfl⟩
  · rw [hk]
  · rw [hnil]

/-- Instance of C8: no registry is passed and `AuthConfigs` holds one entry. -/
theorem GetAuthConfig_any_entry_witness :
    GetAuthConfig (envOf { AuthConfigs := [("r1", credsA)] } (.ok credsB))
        (mkContext "bob" "hunter2" "" []) = (credsA, none) :=
  (GetAuthConfig_any_entry (envOf { AuthConfigs := [("r1", credsA)] } (.ok credsB))
    (mkContext "bob" "hunter2" "" []) { AuthConfigs := [("r1", credsA)] }
    (by decide) rfl (by decide)).2.1 "r1" credsA rfl

/-! ## Properties of `GetRepoAndRef` -/

theorem splitChars_ne_nil (sep : Char) (l : List Char) : strings.splitChars sep l ≠ [] := by
  cases l with
  | nil => simp [strings.splitChars]
  | cons ch rest =>
    unfold strings.splitChars
    split
    · simp
    · split <;> simp

theorem Split_ne_nil (s : String) (sep : Char) : strings.Split s sep ≠ [] := by
  simp [strings.Split, splitChars_ne_nil]

theorem parts_ne_nil (arg : String) : parts arg ≠ [] := by
  unfold parts
  split
  · exact Split_ne_nil arg '@'
  · split
    · exact Split_ne_nil arg ':'
    · simp

theorem GetRepoAndRef_cons (c : Context) (arg : String) (rest : List String)
    (hargs : c.Args = arg :: rest) :
    GetRepoAndRef c =
      some ((parts arg).headD "", ((parts arg).tail.head?).getD "latest", none) := by
  unfold GetRepoAndRef
  rw [hargs]
  cases hp : parts arg with
  | nil => exact absurd hp (parts_ne_nil arg)
  | cons p ps =>
    cases ps with
    | nil => simp [hp]
    | cons q qs => simp [hp]

/-- C9: `GetRepoAndRef` never panics; on an empty argument list it returns
empty `repo` and `ref` and the error "pass the name of the repository"; on a
non-empty argument list, whatever its first string, it returns a nil error;
so it reports an error if and only if the argument list is empty. -/
theorem GetRepoAndRef_error_iff (c : Context) :
    GetRepoAndRef c ≠ none ∧
      (c.Args = [] →
        GetRepoAndRef c = some ("", "", some "pass the name of the repository")) ∧
      (c.Args ≠ [] → ∃ repo ref, GetRepoAndRef c = some (repo, ref, none)) ∧
      ((∃ repo ref err, GetRepoAndRef c = some (repo, ref, some err)) ↔ c.Args = []) := by
  cases hargs : c.Args with
  | nil =>
    have hres : GetRepoAndRef c = some ("", "", some "pass the name of the repository") := by
      unfold GetRepoAndRef
      simp [hargs]
    rw [hres]
    exact ⟨by simp, fun _ => rfl, fun h => absurd rfl h, fun _ => rfl, fun _ => ⟨_, _, _, rfl⟩⟩
  | cons arg rest =>
    rw [GetRepoAndRef_cons c arg rest hargs]
    refine ⟨by simp, fun h => by simp at h, fun _ => ⟨_, _, rfl⟩, ?_⟩
    constructor
    · rintro ⟨repo, ref, err, h⟩
      simp at h
    · intro h
      simp at h

/-- C10: when the first argument `a` contains neither `@` nor `:`,
`GetRepoAndRef` returns `repo = a`, `ref = "latest"` and a nil error. -/
theorem GetRepoAndRef_no_separator (c : Context) (a : String) (rest : List String)
    (hargs : c.Args = a :: rest) (hat : '@' ∉ a.data) (hcolon : ':' ∉ a.data) :
    GetRepoAndRef c = some (a, "latest", none) := by
  rw [GetRepoAndRef_cons c a rest hargs]
  have hp : parts a = [a] := by
    simp [parts, strings.Contains, hat, hcolon]
  rw [hp]
  rfl

/-- Instance of C10: the argument "ubuntu". -/
theorem GetRepoAndRef_no_separator_witness :
    GetRepoAndRef (mkContext "" "" "" ["ubuntu"]) = some ("ubuntu", "latest", none) :=
  GetRepoAndRef_no_separator (mkContext "" "" "" ["ubuntu"]) "ubuntu" [] rfl
    (by decide) (by decide)

/-! ## The pieces `strings.Split` produces -/

theorem splitChars_eq (sep : Char) (l : List Char) :
    strings.splitChars sep l =
      l.takeWhile (fun ch => ch != sep) ::
        (if sep ∈ l then strings.splitChars sep (l.dropWhile (fun ch => ch != sep)).tail
         else []) := by
  induction l with
  | nil => simp [strings.splitChars]
  | cons ch rest ih =>
    conv_lhs => rw [strings.splitChars]
    by_cases h : ch = sep
    · subst h
      simp
    · have h2 : ¬ sep = ch := fun e => h e.symm
      rw [if_neg h, ih]
      simp [h, h2]

theorem takeWhile_ne_of_not_mem (sep : Char) (l : List Char) (h : sep ∉ l) :
    l.takeWhile (fun ch => ch != sep) = l := by
  induction l with
  | nil => rfl
  | cons ch rest ih =>
    have h1 : ch ≠ sep := fun e => h (by simp [e])
    have h2 : sep ∉ rest := fun e => h (by simp [e])
    simp [h1, ih h2]

theorem before_sep_after (sep : Char) (l : List Char) (h : sep ∈ l) :
    l.takeWhile (fun ch => ch != sep) ++ sep :: (l.dropWhile (fun ch => ch != sep)).tail = l := by
  induction l with
  | nil => simp at h
  | cons ch rest ih =>
    by_cases hc : ch = sep
    · subst hc
      simp
    · have h2 : sep ∈ rest := by
        rcases List.mem_cons.1 h with e | e
        · exact absurd e.symm hc
        · exact e
      simp [hc, ih h2]

theorem not_mem_after_of_count_one (sep : Char) (l : List Char) (h : l.count sep = 1) :
    sep ∉ (l.dropWhile (fun ch => ch != sep)).tail := by
  have hmem : sep ∈ l := List.count_pos_iff.1 (by omega)
  have hcount := congrArg (List.count sep) (before_sep_after sep l hmem)
  rw [List.count_append, List.count_cons_self, h] at hcount
  intro hin
  have := List.count_pos_iff.2 hin
  omega

theorem Split_eq (s : String) (sep : Char) :
    strings.Split s sep =
      textBefore s sep ::
        (if sep ∈ s.data then strings.Split (textAfter s sep) sep else []) := by
  unfold strings.Split
  rw [splitChars_eq]
  by_cases h : sep ∈ s.data
  · simp [h, textBefore, textAfter]
  · simp [h, textBefore]

theorem parts_of_at (a : String) (hat : '@' ∈ a.data) : parts a = strings.Split a '@' := by
  simp [parts, strings.Contains, hat]

theorem parts_of_colon (a : String) (hat : '@' ∉ a.data) (hcolon : ':' ∈ a.data) :
    parts a = strings.Split a ':' := by
  simp [parts, strings.Contains, hat, hcolon]

theorem GetRepoAndRef_split (c : Context) (a : String) (rest : List String) (sep : Char)
    (hargs : c.Args = a :: rest) (hparts : parts a = strings.Split a sep)
    (hmem : sep ∈ a.data) :
    GetRepoAndRef c =
      some (textBefore a sep, textBefore (textAfter a sep) sep, none) := by
  rw [GetRepoAndRef_cons c a rest hargs, hparts, Split_eq a sep, if_pos hmem,
    Split_eq (textAfter a sep) sep]
  rfl

/-- C11: when the first argument `a` contains `:` and no `@`, `GetRepoAndRef`
returns as `repo` the text of `a` before its first `:` and as `ref` the text
after the first `:` up to the next `:` or the end of `a`, with a nil error;
what follows a second `:` is dropped, and `ref` is empty, not "latest", when
nothing follows the first `:`. -/
theorem GetRepoAndRef_tag (c : Context) (a : String) (rest : List String)
    (hargs : c.Args = a :: rest) (hcolon : ':' ∈ a.data) (hat : '@' ∉ a.data) :
    GetRepoAndRef c =
        some (textBefore a ':', textBefore (textAfter a ':') ':', none) ∧
      (textAfter a ':' = "" → GetRepoAndRef c = some (textBefore a ':', "", none)) := by
  have hres := GetRepoAndRef_split c a rest ':' hargs (parts_of_colon a hat hcolon) hcolon
  refine ⟨hres, fun hempty => ?_⟩
  rw [hres, hempty]
  rfl

/-- Instances of C11: the arguments "ubuntu:18.04", "a:b:c" and "ubuntu:". -/
theorem GetRepoAndRef_tag_witness :
    GetRepoAndRef (mkContext "" "" "" ["ubuntu:18.04"]) = some ("ubuntu", "18.04", none) ∧
      GetRepoAndRef (mkContext "" "" "" ["a:b:c"]) = some ("a", "b", none) ∧
      GetRepoAndRef (mkContext "" "" "" ["ubuntu:"]) = some ("ubuntu", "", none) :=
  ⟨(GetRepoAndRef_tag (mkContext "" "" "" ["ubuntu:18.04"]) "ubuntu:18.04" [] rfl
      (by decide) (by decide)).1,
    (GetRepoAndRef_tag (mkContext "" "" "" ["a:b:c"]) "a:b:c" [] rfl
      (by decide) (by decide)).1,
    (GetRepoAndRef_tag (mkContext "" "" "" ["ubuntu:"]) "ubuntu:" [] rfl
      (by decide) (by decide)).2 (by decide)⟩

/-- C12: when the first argument `a` contains `@`, `parts` is the split of `a`
at `@` alone, and `GetRepoAndRef` returns as `repo` the whole text of `a` before
its first `@` and as `ref` the whole text after the first `@` up to the next `@`
or the end of `a`, with a nil error; a `:` on either side is kept. -/
theorem GetRepoAndRef_digest (c : Context) (a : String) (rest : List String)
    (hargs : c.Args = a :: rest) (hat : '@' ∈ a.data) :
    parts a = strings.Split a '@' ∧
      GetRepoAndRef c =
        some (textBefore a '@', textBefore (textAfter a '@') '@', none) :=
  ⟨parts_of_at a hat, GetRepoAndRef_split c a rest '@' hargs (parts_of_at a hat) hat⟩

/-- Instance of C12: a registry with a port and a digest. -/
theorem GetRepoAndRef_digest_witness :
    GetRepoAndRef (mkContext "" "" "" ["localhost:5000/ubuntu@sha256:abcd"]) =
      some ("localhost:5000/ubuntu", "sha256:abcd", none) :=
  (GetRepoAndRef_digest (mkContext "" "" "" ["localhost:5000/ubuntu@sha256:abcd"])
    "localhost:5000/ubuntu@sha256:abcd" [] rfl (by decide)).2

/-- C13, as stated, fails: for the argument "ubuntu@sha256:abcd" the variable
`parts` is not the three pieces "ubuntu", "sha256", "abcd" and the result is not
`repo = "ubuntu"`, `ref = "sha256"`. -/
theorem GetRepoAndRef_digest_example_counterexample :
    parts "ubuntu@sha256:abcd" ≠ ["ubuntu", "sha256", "abcd"] ∧
      GetRepoAndRef (mkContext "" "" "" ["ubuntu@sha256:abcd"]) ≠
        some ("ubuntu", "sha256", none) := by
  constructor <;> decide

/-- C13, amended: for the argument "ubuntu@sha256:abcd" the variable `parts` is
the two pieces "ubuntu" and "sha256:abcd", and `GetRepoAndRef` returns
`repo = "ubuntu"`, `ref = "sha256:abcd"` and a nil error. -/
theorem GetRepoAndRef_digest_example :
    parts "ubuntu@sha256:abcd" = ["ubuntu", "sha256:abcd"] ∧
      GetRepoAndRef (mkContext "" "" "" ["ubuntu@sha256:abcd"]) =
        some ("ubuntu", "sha256:abcd", none) := by
  constructor <;> decide

/-- C14: `GetRepoAndRef` reads the first positional argument only: its result
on the arguments `a :: rest` is its result on the single argument `a`. -/
theorem GetRepoAndRef_first_argument_only (globals : String → String) (a : String)
    (rest : List String) :
    GetRepoAndRef { globals := globals, args := a :: rest } =
      GetRepoAndRef { globals := globals, args := [a] } := by
  rw [GetRepoAndRef_cons { globals := globals, args := a :: rest } a rest rfl,
    GetRepoAndRef_cons { globals := globals, args := [a] } a [] rfl]

/-! ## Properties of `getConfiguredCredentialStore` -/

/-- C15, as stated, fails for the empty server address: with the empty string
as a key of `CredentialHelpers`, `getConfiguredCredentialStore` does not return
the helper stored under it but `CredentialsStore`. -/
theorem getConfiguredCredentialStore_counterexample :
    mapFind cfgEmptyKey.CredentialHelpers "" = some "desktop" ∧
      getConfiguredCredentialStore cfgEmptyKey "" = "osxkeychain" ∧
      ¬ ∀ (c : ConfigFile) (s h : String),
          mapFind c.CredentialHelpers s = some h → getConfiguredCredentialStore c s = h := by
  refine ⟨by decide, by decide, fun hall => ?_⟩
  have h := hall cfgEmptyKey "" "desktop" (by decide)
  revert h
  decide

/-- C15, amended: for a non-empty server address `s`,
`getConfiguredCredentialStore` returns the helper stored under `s` when `s` is a
key of `CredentialHelpers` (an empty stored name included) and otherwise
`CredentialsStore`; for the empty server address it returns `CredentialsStore`
whatever `CredentialHelpers` holds; so it returns the empty string when no
helper is found and no default store is set. -/
theorem getConfiguredCredentialStore_eq (c : ConfigFile) (s : String) :
    (s ≠ "" → ∀ h, mapFind c.CredentialHelpers s = some h →
        getConfiguredCredentialStore c s = h) ∧
      (s ≠ "" → mapFind c.CredentialHelpers s = none →
        getConfiguredCredentialStore c s = c.CredentialsStore) ∧
      (s = "" → getConfiguredCredentialStore c s = c.CredentialsStore) ∧
      (mapFind c.CredentialHelpers s = none → c.CredentialsStore = "" →
        getConfiguredCredentialStore c s = "") := by
  unfold getConfiguredCredentialStore
  cases hch : c.CredentialHelpers with
  | none => simp [mapFind]
  | some helpers =>
    by_cases hs : s = ""
    · simp [mapFind, hs]
    · cases hl : helpers.lookup s with
      | none => simp [mapFind, hs, hl]
      | some helper => simp [mapFind, hs, hl]

/-- Instance of the amended C15: the helper stored under "r1" is the empty
name and wins over the default store; the default store answers for "r2". -/
theorem getConfiguredCredentialStore_eq_witness :
    getConfiguredCredentialStore
        { CredentialHelpers := some [("r1", "")], CredentialsStore := "osxkeychain" } "r1" = "" ∧
      getConfiguredCredentialStore
        { CredentialHelpers := some [("r1", "")], CredentialsStore := "osxkeychain" } "r2" =
        "osxkeychain" :=
  ⟨(getConfiguredCredentialStore_eq
      { CredentialHelpers := some [("r1", "")], CredentialsStore := "osxkeychain" } "r1").1
      (by decide) "" (by decide),
    (getConfiguredCredentialStore_eq
      { CredentialHelpers := some [("r1", "")], CredentialsStore := "osxkeychain" } "r2").2.1
      (by decide) (by decide)⟩

/-! ## Independence properties of `GetAuthConfig` -/

/-- C16: when at least one of the flags `username`, `password`, `registry` is
empty, the result of `GetAuthConfig` does not depend on `username` or
`password`: two calls in the same environment (same loader outcome, same store,
same visiting order of `AuthConfigs`) with the same `registry`, each with at
least one empty flag, return the same result. -/
theorem GetAuthConfig_partial_flags_ignored (env : Env) (c₁ c₂ : Context)
    (hreg : c₁.GlobalString "registry" = c₂.GlobalString "registry")
    (h₁ : c₁.GlobalString "username" = "" ∨ c₁.GlobalString "password" = "" ∨
      c₁.GlobalString "registry" = "")
    (h₂ : c₂.GlobalString "username" = "" ∨ c₂.GlobalString "password" = "" ∨
      c₂.GlobalString "registry" = "") :
    GetAuthConfig env c₁ = GetAuthConfig env c₂ := by
  unfold GetAuthConfig
  rw [if_neg (not_all_flags h₁), if_neg (not_all_flags h₂), hreg]

/-- Instance of C16: a username alone and a password alone give the same
result for the registry "r1". -/
theorem GetAuthConfig_partial_flags_ignored_witness :
    GetAuthConfig (envOf { AuthConfigs := [("r1", credsA)] } (.ok credsB))
        (mkContext "bob" "" "r1" []) =
      GetAuthConfig (envOf { AuthConfigs := [("r1", credsA)] } (.ok credsB))
        (mkContext "" "hunter2" "r1" []) :=
  GetAuthConfig_partial_flags_ignored (envOf { AuthConfigs := [("r1", credsA)] } (.ok credsB))
    (mkContext "bob" "" "r1" []) (mkContext "" "hunter2" "r1" []) rfl
    (Or.inr (Or.inl (by decide))) (Or.inl (by decide))

/-- C17: off the helper path, that is unless `registry` is non-empty, `username`
or `password` is empty, the config loads and `getConfiguredCredentialStore`
gives a non-empty name for the registry, the result of `GetAuthConfig` is the
same for any two behaviours of the native store; in particular, with an empty
registry, a config that has a default store and no `AuthConfigs` ends in the
error "Could not find any authentication credentials" whatever the store
does. -/
theorem GetAuthConfig_store_off_helper_path (dir : String)
    (load : String → Except String ConfigFile)
    (get₁ get₂ : ConfigFile → String → String → Except String AuthConfig) (c : Context)
    (hoff : ¬ (c.GlobalString "registry" ≠ "" ∧
      (c.GlobalString "username" = "" ∨ c.GlobalString "password" = "") ∧
      ∃ cfg, load dir = .ok cfg ∧
        getConfiguredCredentialStore cfg (c.GlobalString "registry") ≠ "")) :
    GetAuthConfig { Dir := dir, Load := load, NativeGet := get₁ } c =
        GetAuthConfig { Dir := dir, Load := load, NativeGet := get₂ } c ∧
      (c.GlobalString "registry" = "" → ∀ cfg, load dir = .ok cfg →
        cfg.AuthConfigs = [] → cfg.CredentialsStore ≠ "" →
        GetAuthConfig { Dir := dir, Load := load, NativeGet := get₁ } c =
          ({}, some "Could not find any authentication credentials")) := by
  constructor
  · unfold GetAuthConfig
    by_cases hall : c.GlobalString "username" ≠ "" ∧ c.GlobalString "password" ≠ "" ∧
        c.GlobalString "registry" ≠ ""
    · rw [if_pos hall, if_pos hall]
    · rw [if_neg hall, if_neg hall]
      cases hl : load dir with
      | error e => simp only [hl]
      | ok cfg =>
        by_cases hr : c.GlobalString "registry" = ""
        · simp [hl, hr]
        · have hstore : getConfiguredCredentialStore cfg (c.GlobalString "registry") = "" := by
            by_contra hne
            apply hoff
            refine ⟨hr, ?_, cfg, hl, hne⟩
            by_contra hup
            push_neg at hup
            exact hall ⟨hup.1, hup.2, hr⟩
          simp [hl, hr, hstore]
  · intro hr cfg hl hnil hstore
    have hauth : cfg.ContainsAuth = true := by
      simp [ConfigFile.ContainsAuth, hstore]
    unfold GetAuthConfig
    rw [if_neg (not_all_flags (Or.inr (Or.inr hr)))]
    simp [hl, hauth, hr, hnil]

/-- Instance of C17: no registry is passed and the config has the default store
"osxkeychain" and no `AuthConfigs`; a store that answers and a store that fails
give the same result, the error of an empty `AuthConfigs`. -/
theorem GetAuthConfig_store_off_helper_path_witness :
    GetAuthConfig (envOf { CredentialsStore := "osxkeychain" } (.ok credsA))
        (mkContext "" "" "" []) =
      GetAuthConfig (envOf { CredentialsStore := "osxkeychain" } (.error "locked"))
        (mkContext "" "" "" []) ∧
    GetAuthConfig (envOf { CredentialsStore := "osxkeychain" } (.ok credsA))
        (mkContext "" "" "" []) =
      ({}, some "Could not find any authentication credentials") :=
  have h := GetAuthConfig_store_off_helper_path "/home/user/.docker"
    (fun _ => .ok { CredentialsStore := "osxkeychain" })
    (fun _ _ _ => .ok credsA) (fun _ _ _ => .error "locked") (mkContext "" "" "" [])
    (fun hon => hon.1 (by decide))
  ⟨h.1, h.2 (by decide) { CredentialsStore := "osxkeychain" } rfl rfl (by decide)⟩

/-! ## Round trip of `GetRepoAndRef` -/

theorem textBefore_append_textAfter (a : String) (sep : Char) (h : sep ∈ a.data) :
    textBefore a sep ++ String.singleton sep ++ textAfter a sep = a := by
  apply String.ext
  have hl := before_sep_after sep a.data h
  simpa [textBefore, textAfter, String.singleton] using hl

theorem textBefore_textAfter_of_count_one (a : String) (sep : Char)
    (h : a.data.count sep = 1) : textBefore (textAfter a sep) sep = textAfter a sep := by
  have hnot := not_mem_after_of_count_one sep a.data h
  unfold textBefore
  rw [show (textAfter a sep).data = (a.data.dropWhile (fun ch => ch != sep)).tail from rfl,
    takeWhile_ne_of_not_mem sep _ hnot]
  rfl

/-- C18: when the first argument `a` contains exactly one `@`, the result
`(repo, ref)` of `GetRepoAndRef` satisfies `repo ++ "@" ++ ref = a`; when `a`
contains no `@` and exactly one `:`, it satisfies `repo ++ ":" ++ ref = a`; and
for the argument "a:b:c", where the separator is repeated, the result does not
satisfy the equation. -/
theorem GetRepoAndRef_round_trip (c : Context) (a : String) (rest : List String)
    (hargs : c.Args = a :: rest) :
    (a.data.count '@' = 1 →
        ∃ repo ref, GetRepoAndRef c = some (repo, ref, none) ∧ repo ++ "@" ++ ref = a) ∧
      ('@' ∉ a.data → a.data.count ':' = 1 →
        ∃ repo ref, GetRepoAndRef c = some (repo, ref, none) ∧ repo ++ ":" ++ ref = a) ∧
      (∀ repo ref, GetRepoAndRef (mkContext "" "" "" ["a:b:c"]) = some (repo, ref, none) →
        repo ++ ":" ++ ref ≠ "a:b:c") := by
  refine ⟨fun hone => ?_, fun hat hone => ?_, fun repo ref hres => ?_⟩
  · have hmem : '@' ∈ a.data := List.count_pos_iff.1 (by omega)
    refine ⟨textBefore a '@', textAfter a '@', ?_, textBefore_append_textAfter a '@' hmem⟩
    rw [GetRepoAndRef_split c a rest '@' hargs (parts_of_at a hmem) hmem,
      textBefore_textAfter_of_count_one a '@' hone]
  · have hmem : ':' ∈ a.data := List.count_pos_iff.1 (by omega)
    refine ⟨textBefore a ':', textAfter a ':', ?_, textBefore_append_textAfter a ':' hmem⟩
    rw [GetRepoAndRef_split c a rest ':' hargs (parts_of_colon a hat hmem) hmem,
      textBefore_textAfter_of_count_one a ':' hone]
  · have hval : GetRepoAndRef (mkContext "" "" "" ["a:b:c"]) = some ("a", "b", none) := by
      decide
    rw [hval] at hres
    simp only [Option.some.injEq, Prod.mk.injEq] at hres
    obtain ⟨h1, h2, -⟩ := hres
    subst h1 h2
    decide

/-- Instance of C18: a tag argument and a digest argument are put together
again from their two parts. -/
theorem GetRepoAndRef_round_trip_witness :
    (∃ repo ref, GetRepoAndRef (mkContext "" "" "" ["ubuntu:18.04"]) = some (repo, ref, none) ∧
        repo ++ ":" ++ ref = "ubuntu:18.04") ∧
      (∃ repo ref,
        GetRepoAndRef (mkContext "" "" "" ["ubuntu@sha256:abcd"]) = some (repo, ref, none) ∧
        repo ++ "@" ++ ref = "ubuntu@sha256:abcd") :=
  ⟨(GetRepoAndRef_round_trip (mkContext "" "" "" ["ubuntu:18.04"]) "ubuntu:18.04" [] rfl).2.1
      (by decide) (by decide),
    (GetRepoAndRef_round_trip (mkContext "" "" "" ["ubuntu@sha256:abcd"])
      "ubuntu@sha256:abcd" [] rfl).1 (by decide)⟩

end utils
